import Mathlib

/-!
# TedkOS: system-call entry, first-thread construction and paging bootstrap

A shallow embedding of `syscalls/syscalls.cpp` and of the thread-start and paging
parts of `kernel.cpp`.

* Machine words are natural numbers below `4294967296` (2^32); every arithmetic
  operation of the code on an address or a register wraps modulo that number.
* Memory is byte addressed and little endian, as on x86.
* `int32_t` results are integers; they become words through `toWord`.
-/

namespace TedkOS

/-! ## System-call dispatch (`syscalls.cpp`, lines 8 to 90) -/

/-- One line of console output.  The only line the modelled code prints is the one of
`sysHalt`, `printf("Ooo.. Halt with %d\n", p)`; it records the argument `p`. -/
inductive ConsoleEvent where
  | haltLine (p : Nat)
deriving DecidableEq, Repr

/-- Everything printed so far, oldest line first. -/
abbrev Console := List ConsoleEvent

def SYS_HALT : Nat := 1
def SYS_EXECUTE : Nat := 2
def SYS_READ : Nat := 3
def SYS_WRITE : Nat := 4
def SYS_OPEN : Nat := 5
def SYS_CLOSE : Nat := 6
def SYS_GETARGS : Nat := 7
def SYS_VIDMAP : Nat := 8
def SYS_SET_HANDLER : Nat := 9
def SYS_SIGRETURN : Nat := 10

/-- Source function `int32_t sysHalt(uint32_t p)`: prints one line carrying `p`, returns 0. -/
def sysHalt (p : Nat) (con : Console) : Int × Console :=
  (0, con ++ [ConsoleEvent.haltLine p])

/-- A handler together with its arity, the information `function_traits<F>::arity`
gives the templates at compile time. -/
inductive Handler where
  | arity1 (f : Nat → Console → Int × Console)
  | arity2 (f : Nat → Nat → Console → Int × Console)
  | arity3 (f : Nat → Nat → Nat → Console → Int × Console)

/-- Source function `SystemCallArgN<1>::run`: calls `fptr` on `p1` alone.  The
`reinterpret_cast` to `arg1_type` is the identity on a word. -/
def SystemCallArgN1_run (fptr : Nat → Console → Int × Console) (p1 _p2 _p3 : Nat)
    (con : Console) : Int × Console :=
  fptr p1 con

/-- Source function `SystemCallArgN<2>::run`. -/
def SystemCallArgN2_run (fptr : Nat → Nat → Console → Int × Console) (p1 p2 _p3 : Nat)
    (con : Console) : Int × Console :=
  fptr p1 p2 con

/-- Source function `SystemCallArgN<3>::run`. -/
def SystemCallArgN3_run (fptr : Nat → Nat → Nat → Console → Int × Console) (p1 p2 p3 : Nat)
    (con : Console) : Int × Console :=
  fptr p1 p2 p3 con

/-- Source function `systemCallRunner`: selects the marshalling class by the arity of
the handler. -/
def systemCallRunner (fptr : Handler) (p1 p2 p3 : Nat) (con : Console) : Int × Console :=
  match fptr with
  | Handler.arity1 f => SystemCallArgN1_run f p1 p2 p3 con
  | Handler.arity2 f => SystemCallArgN2_run f p1 p2 p3 con
  | Handler.arity3 f => SystemCallArgN3_run f p1 p2 p3 con

/-- Source function `systemCallDispatcher`: the `switch` over the index; every
recognised case runs `sysHalt`, the default returns -1. -/
def systemCallDispatcher (idx p1 p2 p3 : Nat) (con : Console) : Int × Console :=
  if idx = SYS_HALT then systemCallRunner (Handler.arity1 sysHalt) p1 p2 p3 con
  else if idx = SYS_EXECUTE then systemCallRunner (Handler.arity1 sysHalt) p1 p2 p3 con
  else if idx = SYS_READ then systemCallRunner (Handler.arity1 sysHalt) p1 p2 p3 con
  else if idx = SYS_WRITE then systemCallRunner (Handler.arity1 sysHalt) p1 p2 p3 con
  else if idx = SYS_OPEN then systemCallRunner (Handler.arity1 sysHalt) p1 p2 p3 con
  else if idx = SYS_CLOSE then systemCallRunner (Handler.arity1 sysHalt) p1 p2 p3 con
  else if idx = SYS_GETARGS then systemCallRunner (Handler.arity1 sysHalt) p1 p2 p3 con
  else if idx = SYS_VIDMAP then systemCallRunner (Handler.arity1 sysHalt) p1 p2 p3 con
  else if idx = SYS_SET_HANDLER then systemCallRunner (Handler.arity1 sysHalt) p1 p2 p3 con
  else if idx = SYS_SIGRETURN then systemCallRunner (Handler.arity1 sysHalt) p1 p2 p3 con
  else (-1, con)

/-! ## Words and byte-addressed memory -/

/-- The 32-bit word that represents an `int32_t` value (two's complement). -/
def toWord (i : Int) : Nat := (i % 4294967296).toNat

/-- Subtraction of 32-bit words, `a - n` modulo 2^32: with a borrow when `a < n`. -/
def sub32 (a n : Nat) : Nat :=
  (if n ≤ a then a - n else a + 4294967296 - n) % 4294967296

/-- Physical memory: a byte for every address. -/
abbrev Mem := Nat → Nat

/-- Little-endian 32-bit load at byte address `a`; addresses wrap at 2^32. -/
def load32 (mem : Mem) (a : Nat) : Nat :=
  mem (a % 4294967296) % 256
    + 256 * (mem ((a + 1) % 4294967296) % 256)
    + 65536 * (mem ((a + 2) % 4294967296) % 256)
    + 16777216 * (mem ((a + 3) % 4294967296) % 256)

/-- Little-endian 32-bit store of `v` at byte address `a`. -/
def store32 (mem : Mem) (a v : Nat) : Mem := fun x =>
  if x = a % 4294967296 then v % 256
  else if x = (a + 1) % 4294967296 then v / 256 % 256
  else if x = (a + 2) % 4294967296 then v / 65536 % 256
  else if x = (a + 3) % 4294967296 then v / 16777216 % 256
  else mem x

/-! ## The processor state seen by the trampoline -/

/-- General registers, the zero flag, memory and the console. -/
structure Machine where
  eax : Nat
  ecx : Nat
  edx : Nat
  ebx : Nat
  esp : Nat
  ebp : Nat
  esi : Nat
  edi : Nat
  zf : Bool
  mem : Mem
  console : Console

/-- Instruction `pushl` of a word `v`: decrement the stack pointer by 4, store there. -/
def pushl (v : Nat) (m : Machine) : Machine :=
  { m with esp := sub32 m.esp 4,
           mem := store32 m.mem (sub32 m.esp 4) v }

/-- Instruction `pushal`: pushes eax, ecx, edx, ebx, the stack pointer as it was
before the instruction, ebp, esi, edi, in this order. -/
def pushal (m : Machine) : Machine :=
  pushl m.edi (pushl m.esi (pushl m.ebp (pushl m.esp
    (pushl m.ebx (pushl m.edx (pushl m.ecx (pushl m.eax m)))))))

/-- Instruction `popal`: pops edi, esi, ebp, skips the saved stack pointer, pops ebx,
edx, ecx, eax. -/
def popal (m : Machine) : Machine :=
  { m with edi := load32 m.mem m.esp,
           esi := load32 m.mem (m.esp + 4),
           ebp := load32 m.mem (m.esp + 8),
           ebx := load32 m.mem (m.esp + 16),
           edx := load32 m.mem (m.esp + 20),
           ecx := load32 m.mem (m.esp + 24),
           eax := load32 m.mem (m.esp + 28),
           esp := (m.esp + 32) % 4294967296 }

/-- Instruction `popl %eax`. -/
def popl_eax (m : Machine) : Machine :=
  { m with eax := load32 m.mem m.esp, esp := (m.esp + 4) % 4294967296 }

/-- Instruction `leave`: `movl %ebp, %esp` then `popl %ebp`. -/
def leave (m : Machine) : Machine :=
  { m with ebp := load32 m.mem m.ebp, esp := (m.ebp + 4) % 4294967296 }

/-- The frame-pointer prologue the compiler emits at the head of a function built
without optimisation (`pushl %ebp; movl %esp, %ebp`).  The handler carries
`__attribute__((optimize("O0")))`, so it has this prologue in every build; the `leave`
at the head of its assembly is what undoes it. -/
def framePrologue (m : Machine) : Machine :=
  let m1 := pushl m.ebp m
  { m1 with ebp := m1.esp }

/-- Instruction `movl %eax, off(%esp)`. -/
def movl_eax_to_stack (off : Nat) (m : Machine) : Machine :=
  { m with mem := store32 m.mem (m.esp + off) m.eax }

/-- Instruction `addl $n, %esp`. -/
def addl_esp (n : Nat) (m : Machine) : Machine :=
  { m with esp := (m.esp + n) % 4294967296, zf := decide ((m.esp + n) % 4294967296 = 0) }

/-- Instruction `movl %esp, (%eax)`. -/
def movl_esp_to_at_eax (m : Machine) : Machine :=
  { m with mem := store32 m.mem m.eax m.esp }

/-- Instruction `testl %eax, %eax`: sets the zero flag when eax is zero. -/
def testl_eax_eax (m : Machine) : Machine :=
  { m with zf := decide (m.eax &&& m.eax = 0) }

/-- Instruction `movl %eax, %esp`. -/
def movl_eax_to_esp (m : Machine) : Machine :=
  { m with esp := m.eax }

/-- The execution state an interrupt return resumes: the registers and memory, the
instruction pointer, code selector and flags popped by `iret`, and the stack selector
when the return leaves ring 0. -/
structure Resume where
  cpu : Machine
  eip : Nat
  cs : Nat
  eflags : Nat
  ss : Option Nat

/-- Instruction `iret` executed in ring 0: pops the instruction pointer, the code
selector and the flags; when the popped selector asks for an outer ring (its two low
bits are not zero) it also pops the stack pointer and the stack selector. -/
def iret (m : Machine) : Resume :=
  let cs := load32 m.mem (m.esp + 4)
  { cpu := { m with esp := if cs % 4 = 0 then (m.esp + 12) % 4294967296
                           else load32 m.mem (m.esp + 12) },
    eip := load32 m.mem m.esp,
    cs := cs,
    eflags := load32 m.mem (m.esp + 8),
    ss := if cs % 4 = 0 then none else some (load32 m.mem (m.esp + 16)) }

/-- The effect of a compiled C function on the machine, as an arbitrary state
transformer.  It covers the return address pushed by `call`, the body, and `ret`. -/
abbrev CFunction := Machine → Machine

/-- Instruction `call f` for a C function under the cdecl convention: the result comes
back in eax, ecx and edx are scratch, memory may change, and ebx, esi, edi, ebp and
the stack pointer are as before the call. -/
def call (f : CFunction) (m : Machine) : Machine :=
  { f m with eax := (f m).eax % 4294967296,
             ecx := (f m).ecx % 4294967296,
             edx := (f m).edx % 4294967296,
             ebx := m.ebx, esp := m.esp, ebp := m.ebp, esi := m.esi, edi := m.edi }

/-- Instruction `call systemCallDispatcher`: the four arguments are the words at the
stack pointer; eax receives the result of the source function and the console what
it printed.  The remaining effect of the compiled body (scratch registers, its own
stack use) is the C function `scratch`. -/
def call_systemCallDispatcher (scratch : CFunction) (m : Machine) : Machine :=
  let r := systemCallDispatcher (load32 m.mem m.esp) (load32 m.mem (m.esp + 4))
    (load32 m.mem (m.esp + 8)) (load32 m.mem (m.esp + 12)) m.console
  { call scratch m with eax := toWord r.1, console := r.2 }

/-! ## The system-call trampoline (`syscalls.cpp`, lines 114 to 148) -/

/-- The C functions the trampoline calls whose bodies are outside the modelled files,
and the scratch effect of the compiled dispatcher. -/
structure Kernel where
  dispatcherScratch : CFunction
  getCurrentThreadInfo : CFunction
  schedDispatchDecision : CFunction

/-- Trampoline, first part, after the prologue of the function: `leave` under
`#ifndef __OPTIMIZE__`, then `pushl %eax`, `pushal`.  The flag `optimized` says that
`__OPTIMIZE__` is defined in the build, in which case the `leave` is compiled out. -/
def saveContext (optimized : Bool) (m : Machine) : Machine :=
  let m1 := framePrologue m
  let m2 := if optimized then m1 else leave m1
  pushal (pushl m2.eax m2)

/-- Trampoline, second part: push edx, ecx, ebx, eax; call the dispatcher;
`movl %eax, 28+0(%esp)`; `addl $16, %esp`. -/
def runSystemCall (k : Kernel) (m : Machine) : Machine :=
  let m1 := pushl m.edx m
  let m2 := pushl m1.ecx m1
  let m3 := pushl m2.ebx m2
  let m4 := pushl m3.eax m3
  let m5 := call_systemCallDispatcher k.dispatcherScratch m4
  let m6 := movl_eax_to_stack (28 + 0) m5
  addl_esp 16 m6

/-- Trampoline, third part: `call getCurrentThreadInfo; movl %esp, (%eax)`. -/
def recordEsp0 (k : Kernel) (m : Machine) : Machine :=
  movl_esp_to_at_eax (call k.getCurrentThreadInfo m)

/-- Trampoline, fourth part: `call schedDispatchDecision; testl %eax, %eax; jz 1f;
movl %eax, %esp; 1:`. -/
def switchStack (k : Kernel) (m : Machine) : Machine :=
  let m1 := testl_eax_eax (call k.schedDispatchDecision m)
  if m1.zf then m1 else movl_eax_to_esp m1

/-- Trampoline, last part: `popal; popl %eax; iret`. -/
def restoreContext (m : Machine) : Resume :=
  iret (popl_eax (popal m))

/-- Source function `systemCallHandler`, from the state at the interrupt gate (the
stack pointer at the hardware interrupt-return frame) to the resumed state, in the
build without (`optimized = false`) or with (`optimized = true`) `__OPTIMIZE__`. -/
def systemCallHandler (optimized : Bool) (k : Kernel) (m : Machine) : Resume :=
  restoreContext (switchStack k (recordEsp0 k (runSystemCall k (saveContext optimized m))))


/-! ## Context construction for the first thread (`kernel.cpp`, lines 139 to 187) -/

/-- Modelled from the spec: the record `pushal_t` of `inc/x86/stacker.h`, which is not
among the source files.  It is the general-purpose register save block, 8 words in
the fixed save order of `pushal`. -/
structure pushal_t where
  eax : Nat
  ecx : Nat
  edx : Nat
  ebx : Nat
  esp : Nat
  ebp : Nat
  esi : Nat
  edi : Nat

/-- Modelled from the spec: the class `Stacker<x86>` of `inc/x86/stacker.h`, which is
not among the source files: a cursor over a raw stack region that tracks the current
stack pointer.  The memory it writes is carried along. -/
structure Stacker where
  esp : Nat
  mem : Mem

/-- Modelled from the spec: the constructor of `Stacker<x86>`; the cursor starts from
the base address it is given. -/
def Stacker.new (base : Nat) (mem : Mem) : Stacker :=
  { esp := base % 4294967296, mem := mem }

/-- Modelled from the spec: `Stacker::getESP`, the current stack pointer. -/
def Stacker.getESP (k : Stacker) : Nat := k.esp

/-- Modelled from the spec: `operator<<` of `Stacker<x86>` on a word; the cursor grows
downward by one word and the word is written where it then points. -/
def Stacker.pushWord (k : Stacker) (v : Nat) : Stacker :=
  { esp := sub32 k.esp 4,
    mem := store32 k.mem (sub32 k.esp 4) v }

/-- Modelled from the spec: `operator<<` of `Stacker<x86>` on a `pushal_t`; the eight
words are written downward in the save order, so that edi ends at the lowest address
and eax at the highest. -/
def Stacker.pushRegs (k : Stacker) (r : pushal_t) : Stacker :=
  (((((((k.pushWord r.eax).pushWord r.ecx).pushWord r.edx).pushWord r.ebx).pushWord
    r.esp).pushWord r.ebp).pushWord r.esi).pushWord r.edi

/-- The flags word of `kernel.cpp` line 163, `(flags & (~0x24100)) | 0x3200`, on a
32-bit `flags`. -/
def eflagsWord (flags : Nat) : Nat :=
  (flags &&& (0xFFFFFFFF ^^^ 0x24100)) ||| 0x3200

/-- The construction sequence of `kernel.cpp` lines 159 to 175 for a stack top, initial
flags, code selector, entry address and register block: flags word, selector, entry
address, then the register block, which may depend on the cursor reached (the source
sets `regs.esp` from `kstack.getESP()`). -/
def contextConstruction (top flags cs entry : Nat) (regs : Nat → pushal_t) (mem : Mem) :
    Stacker :=
  let k0 := Stacker.new top mem
  let k1 := k0.pushWord (eflagsWord flags)
  let k2 := k1.pushWord (cs % 4294967296)
  let k3 := k2.pushWord (entry % 4294967296)
  k3.pushRegs (regs k3.getESP)

/-- What `_entry` needs from the parts of the kernel outside the modelled files. -/
structure BootEnv where
  /-- The result of `newPausedProcess(-1)`. -/
  child_upid : Int
  /-- The address of `proc.mainThreadInfo->kstack`. -/
  kstack : Nat
  THREAD_KSTACK_SIZE : Nat
  USER_CS_SEL : Nat
  /-- The address of the function `init_main`. -/
  init_main : Nat

/-- The register block `_entry` fills in at lines 168 to 173. -/
def bootRegs (esp : Nat) : pushal_t :=
  { esp := esp, ebp := 0, eax := toWord (-1), ebx := 0, ecx := 0, edx := 0, edi := 0, esi := 0 }

/-- What `_entry` leaves behind when it starts the first thread. -/
structure BootOutcome where
  /-- The field `proc.mainThreadInfo->pcb.esp0`. -/
  pcb_esp0 : Nat
  /-- The field `tss.esp0`. -/
  tss_esp0 : Nat
  /-- The state reached by `movl %0, %esp; popal; iretl`. -/
  resume : Resume

/-- The restore sequence at the end of `_entry`, `movl %0, %esp; popal; iretl`, from
the cursor of the stack just built. -/
def launch (m : Machine) (k : Stacker) : Resume :=
  iret (popal { m with esp := k.getESP, mem := k.mem })

/-- Source function `_entry`, from line 139 on (the start of `init` as a kernel
thread); `m` is the processor state there.  The result is `none` when no process id
is left: the code then prints an error and halts forever. -/
def _entry (env : BootEnv) (m : Machine) : Option BootOutcome :=
  let flags := 0
  if env.child_upid < 0 then none
  else
    let kstack := contextConstruction
      (sub32 ((env.kstack + env.THREAD_KSTACK_SIZE) % 4294967296) 1)
      flags env.USER_CS_SEL env.init_main bootRegs m.mem
    some { pcb_esp0 := kstack.getESP,
           tss_esp0 := kstack.getESP,
           resume := launch m kstack }

/-! ## Paging bootstrap (`kernel.cpp`, lines 195 to 215) -/

/-- The two static tables, as maps from index to entry, and the processor state the
bootstrap touches. -/
structure PagingState where
  basicPageDir : Nat → Nat
  basicPageTable0 : Nat → Nat
  /-- The page directory address in use. -/
  cr3 : Nat
  pagingEnabled : Bool
  cpu0_paging_lock : Bool
  interruptsEnabled : Bool

/-- The constants and entry encodings of `inc/x86/paging.h`, which is not among the
source files. -/
structure PagingDefs where
  /-- The address of `basicPageDir`. -/
  pageDirAddr : Nat
  /-- The address of `basicPageTable0`. -/
  pageTableAddr : Nat
  PG_WRITABLE : Nat
  PT_WRITABLE : Nat
  /-- The directory entry of a 4MB page, from its address and flags. -/
  entry4MB : Nat → Nat → Nat
  /-- The directory entry of a page table, from its address and flags. -/
  entryTable : Nat → Nat → Nat
  /-- The table entry of a 4KB page, from its address and flags. -/
  entry4KB : Nat → Nat → Nat

/-- Library function `memset(p, 0, 0x1000)` on an array of 1024 words. -/
def memsetZero (table : Nat → Nat) : Nat → Nat :=
  fun i => if i < 1024 then 0 else table i

/-- Modelled from the spec: `spin_lock_irqsave`, which takes the lock and disables
interrupts; the result is the saved interrupt flag. -/
def spin_lock_irqsave (s : PagingState) : PagingState × Bool :=
  ({ s with cpu0_paging_lock := true, interruptsEnabled := false }, s.interruptsEnabled)

/-- Modelled from the spec: `spin_unlock_irqrestore`, which releases the lock and
restores the saved interrupt flag. -/
def spin_unlock_irqrestore (flag : Bool) (s : PagingState) : PagingState :=
  { s with cpu0_paging_lock := false, interruptsEnabled := flag }

/-- Modelled from the spec: `REDIRECT_PAGE_DIR`, which installs the directory address
as the active page directory. -/
def REDIRECT_PAGE_DIR (d : PagingDefs) (s : PagingState) : PagingState :=
  { s with cr3 := d.pageDirAddr }

/-- Modelled from the spec: `LOAD_4MB_PAGE(dirIdx, addr, flags)`, which marks a
directory entry as a 4MB page. -/
def LOAD_4MB_PAGE (d : PagingDefs) (dirIdx addr flags : Nat) (s : PagingState) :
    PagingState :=
  { s with basicPageDir := Function.update s.basicPageDir dirIdx (d.entry4MB addr flags) }

/-- Modelled from the spec: `LOAD_PAGE_TABLE(dirIdx, table, flags)`, which installs
the table at address `table` into a directory entry. -/
def LOAD_PAGE_TABLE (d : PagingDefs) (dirIdx table flags : Nat) (s : PagingState) :
    PagingState :=
  { s with basicPageDir := Function.update s.basicPageDir dirIdx (d.entryTable table flags) }

/-- Modelled from the spec: `LOAD_4KB_PAGE(tableIdx, pageIdx, addr, flags)`, which
populates entry `pageIdx` of the page table as a 4KB page.  The table installed in
directory entry 0, `basicPageTable0`, is the only page table there is. -/
def LOAD_4KB_PAGE (d : PagingDefs) (_tableIdx pageIdx addr flags : Nat) (s : PagingState) :
    PagingState :=
  { s with basicPageTable0 :=
      Function.update s.basicPageTable0 pageIdx (d.entry4KB addr flags) }

/-- Modelled from the spec: `enable_paging`, which turns paging on. -/
def enable_paging (s : PagingState) : PagingState :=
  { s with pagingEnabled := true }

/-- The loop `for (i = lo; i < hi; i++) body`. -/
def forLoop {σ : Type} (lo hi : Nat) (body : Nat → σ → σ) (s : σ) : σ :=
  (List.range' lo (hi - lo)).foldl (fun acc i => body i acc) s

/-- Source function `kernel_enable_basic_paging`. -/
def kernel_enable_basic_paging (d : PagingDefs) (s : PagingState) : PagingState :=
  let (s1, flag) := spin_lock_irqsave s
  let s2 := { s1 with basicPageDir := memsetZero s1.basicPageDir }
  let s3 := { s2 with basicPageTable0 := memsetZero s2.basicPageTable0 }
  let s4 := REDIRECT_PAGE_DIR d s3
  let s5 := LOAD_4MB_PAGE d 1 (1 <<< 22) d.PG_WRITABLE s4
  let s6 := LOAD_PAGE_TABLE d 0 d.pageTableAddr d.PT_WRITABLE s5
  let s7 := forLoop 1 0x400 (fun i acc => LOAD_4KB_PAGE d 0 i (i <<< 12) d.PG_WRITABLE acc) s6
  let s8 := enable_paging s7
  spin_unlock_irqrestore flag s8


/-! ## Vocabulary of the statements -/

/-- Successive pushes of a list of words, first element first. -/
def pushWords : List Nat → Stacker → Stacker
  | [], k => k
  | v :: vs, k => pushWords vs (k.pushWord v)

/-- The stack of a machine: its stack pointer and memory. -/
def stackOf (m : Machine) : Stacker := { esp := m.esp, mem := m.mem }

/-- The stack the trampoline saves its frame on.  The prologue has stored ebp below
the stack pointer; without `__OPTIMIZE__` the `leave` has brought the stack pointer
back, with it the stack pointer is still one word down. -/
def entryStack (optimized : Bool) (m : Machine) : Stacker :=
  { esp := if optimized then sub32 m.esp 4 else m.esp % 4294967296,
    mem := store32 m.mem (sub32 m.esp 4) m.ebp }

/-- The value of ebp when the trampoline saves its frame: the one at entry when the
`leave` has run, the frame pointer set by the prologue otherwise. -/
def entryEbp (optimized : Bool) (m : Machine) : Nat :=
  if optimized then sub32 m.esp 4 else m.ebp % 4294967296

/-- The state at `call systemCallDispatcher`: the four arguments pushed. -/
def argsPushed (m : Machine) : Machine :=
  pushl m.eax (pushl m.ebx (pushl m.ecx (pushl m.edx m)))

/-- The result of the dispatcher on the pass through the trampoline that continues
from state `s`, the frame saved: its arguments are eax, ebx, ecx and edx. -/
def dispatcherResult (s : Machine) : Int × Console :=
  systemCallDispatcher (s.eax % 4294967296) (s.ebx % 4294967296) (s.ecx % 4294967296)
    (s.edx % 4294967296) s.console

/-- The address of the lowest word of the frame the trampoline saves when entered in
state `m`, the stack pointer right after `pushal`: the stack pointer at entry minus
36 bytes without `__OPTIMIZE__`, minus 40 bytes with it. -/
def frameBase (optimized : Bool) (m : Machine) : Nat :=
  sub32 (m.esp % 4294967296) (if optimized then 40 else 36)

/-- The state of the trampoline right after `movl %esp, (%eax)`. -/
def recorded (optimized : Bool) (k : Kernel) (m : Machine) : Machine :=
  recordEsp0 k (runSystemCall k (saveContext optimized m))

/-- The address `getCurrentThreadInfo` returns on the pass that starts in state `m`:
the address of the esp0 field of the interrupted thread. -/
def threadInfoAddr (optimized : Bool) (k : Kernel) (m : Machine) : Nat :=
  (call k.getCurrentThreadInfo (runSystemCall k (saveContext optimized m))).eax

/-- The value `schedDispatchDecision` returns on the pass that starts in state `m`. -/
def switchDecision (optimized : Bool) (k : Kernel) (m : Machine) : Nat :=
  (call k.schedDispatchDecision (recorded optimized k m)).eax

/-- The C function `f` leaves the `n` bytes from `base` as they are, whatever the state
it is called in. -/
def PreservesBytes (f : CFunction) (base n : Nat) : Prop :=
  ∀ s i, i < n → (f s).mem ((base + i) % 4294967296) = s.mem ((base + i) % 4294967296)

/-- Two memories agree on the 48 bytes of the saved frame at `B`, the four bytes of
the saved stack pointer (offsets 12 to 15), which `popal` skips, apart. -/
def FrameAgree (B : Nat) (m1 m2 : Mem) : Prop :=
  ∀ i, i < 48 → (i < 12 ∨ 16 ≤ i) →
    m1 ((B + i) % 4294967296) = m2 ((B + i) % 4294967296)

/-- The cursor of the construction sequence once the flags word, the selector and the
entry address are written: three words below the top. -/
def cursorAtRegs (top : Nat) : Nat := sub32 (top % 4294967296) 12

/-! ## Concrete inputs -/

/-- A C function that returns `v` and touches nothing else. -/
def returning (v : Nat) : CFunction := fun m => { m with eax := v }

/-- A kernel whose scheduler never switches and whose current thread keeps its esp0
field at address `0x7FE000`. -/
def idleKernel : Kernel :=
  { dispatcherScratch := returning 0,
    getCurrentThreadInfo := returning 0x7FE000,
    schedDispatchDecision := returning 0 }

/-- Memory holding an interrupt-return frame at `0x7FFFF0`: return address
`0x12345678`, code selector `0x08`, flags `0x202`; zero elsewhere. -/
def haltCallMem : Mem := fun a =>
  if a = 0x7FFFF0 then 0x78 else if a = 0x7FFFF1 then 0x56
  else if a = 0x7FFFF2 then 0x34 else if a = 0x7FFFF3 then 0x12
  else if a = 0x7FFFF4 then 0x08
  else if a = 0x7FFFF8 then 0x02 else if a = 0x7FFFF9 then 0x02
  else 0

/-- The state at the interrupt gate for the system call `halt` (index 1 in eax) with
argument 5 in ebx. -/
def haltCall : Machine :=
  { eax := 1, ecx := 0xC, edx := 0xD, ebx := 5, esp := 0x7FFFF0, ebp := 0xB, esi := 6,
    edi := 7, zf := false, mem := haltCallMem, console := [] }

/-- The same state with the unrecognised index 11 in eax. -/
def unknownCall : Machine := { haltCall with eax := 11 }

/-- A processor state with every register zero and memory zero. -/
def zeroMachine : Machine :=
  { eax := 0, ecx := 0, edx := 0, ebx := 0, esp := 0, ebp := 0, esi := 0, edi := 0,
    zf := false, mem := fun _ => 0, console := [] }

/-- A boot environment: a kernel stack of 8KB at `0x800000`, selector `0x23`, entry
address `0x400000`. -/
def sampleBoot : BootEnv :=
  { child_upid := 0, kstack := 0x800000, THREAD_KSTACK_SIZE := 0x2000, USER_CS_SEL := 0x23,
    init_main := 0x400000 }

/-- A register block with every word all ones. -/
def onesRegs : pushal_t :=
  { eax := 0xFFFFFFFF, ecx := 0xFFFFFFFF, edx := 0xFFFFFFFF, ebx := 0xFFFFFFFF,
    esp := 0xFFFFFFFF, ebp := 0xFFFFFFFF, esi := 0xFFFFFFFF, edi := 0xFFFFFFFF }

/-- A paging state in which every entry of both tables is `0xFFFFFFFF`. -/
def dirtyTables : PagingState :=
  { basicPageDir := fun _ => 0xFFFFFFFF, basicPageTable0 := fun _ => 0xFFFFFFFF, cr3 := 0,
    pagingEnabled := false, cpu0_paging_lock := false, interruptsEnabled := true }

/-- Entry encodings of the usual x86 shape: present bit 0, flags or-ed in, page-size
bit 7 for a 4MB page. -/
def samplePaging : PagingDefs :=
  { pageDirAddr := 0x1000, pageTableAddr := 0x2000, PG_WRITABLE := 2, PT_WRITABLE := 2,
    entry4MB := fun a f => a ||| f ||| 0x81,
    entryTable := fun a f => a ||| f ||| 1,
    entry4KB := fun a f => a ||| f ||| 1 }


/-! ## Loads and stores -/

/-- A loaded word is below 2^32. -/
theorem load32_lt (mem : Mem) (a : Nat) : load32 mem a < 4294967296 := by
  unfold load32; omega

/-- A store leaves a byte at cyclic distance 4 or more above its address as it was. -/
theorem store32_apply_of_far (mem : Mem) (a v x : Nat)
    (h : 4 ≤ (x + 4294967296 - a % 4294967296) % 4294967296) :
    store32 mem a v x = mem x := by
  unfold store32
  have h0 : x ≠ a % 4294967296 := by omega
  have h1 : x ≠ (a + 1) % 4294967296 := by omega
  have h2 : x ≠ (a + 2) % 4294967296 := by omega
  have h3 : x ≠ (a + 3) % 4294967296 := by omega
  simp [h0, h1, h2, h3]

/-- Loads from memories that agree on the four bytes read are equal. -/
theorem load32_congr (m1 m2 : Mem) (a : Nat)
    (h : ∀ i, i < 4 → m1 ((a + i) % 4294967296) = m2 ((a + i) % 4294967296)) :
    load32 m1 a = load32 m2 a := by
  unfold load32
  have h0 := h 0 (by omega)
  have h1 := h 1 (by omega)
  have h2 := h 2 (by omega)
  have h3 := h 3 (by omega)
  simp only [Nat.add_zero] at h0
  rw [h0, h1, h2, h3]

/-- A load reads back the word just stored at the same address. -/
theorem load32_store32_same (mem : Mem) (a v b : Nat) (h : a % 4294967296 = b % 4294967296) :
    load32 (store32 mem a v) b = v % 4294967296 := by
  unfold load32 store32
  have h1 : (b + 1) % 4294967296 ≠ a % 4294967296 := by omega
  have h2 : (b + 2) % 4294967296 ≠ a % 4294967296 := by omega
  have h3 : (b + 3) % 4294967296 ≠ a % 4294967296 := by omega
  have h4 : (b + 2) % 4294967296 ≠ (a + 1) % 4294967296 := by omega
  have h5 : (b + 3) % 4294967296 ≠ (a + 1) % 4294967296 := by omega
  have h6 : (b + 3) % 4294967296 ≠ (a + 2) % 4294967296 := by omega
  have e0 : b % 4294967296 = a % 4294967296 := h.symm
  have e1 : (b + 1) % 4294967296 = (a + 1) % 4294967296 := by omega
  have e2 : (b + 2) % 4294967296 = (a + 2) % 4294967296 := by omega
  have e3 : (b + 3) % 4294967296 = (a + 3) % 4294967296 := by omega
  simp only [h1, h2, h3, h4, h5, h6, e0, if_true, if_false]
  rw [e1, e2, e3]
  have h1 : (a + 1) % 4294967296 ≠ a % 4294967296 := by omega
  have h2 : (a + 2) % 4294967296 ≠ a % 4294967296 := by omega
  have h3 : (a + 3) % 4294967296 ≠ a % 4294967296 := by omega
  have h4 : (a + 2) % 4294967296 ≠ (a + 1) % 4294967296 := by omega
  have h5 : (a + 3) % 4294967296 ≠ (a + 1) % 4294967296 := by omega
  have h6 : (a + 3) % 4294967296 ≠ (a + 2) % 4294967296 := by omega
  simp only [h1, h2, h3, h4, h5, h6, if_true, if_false]
  omega

/-- A load is not affected by a store whose four bytes are disjoint from its own. -/
theorem load32_store32_far (mem : Mem) (a v b : Nat)
    (h : 4 ≤ (b % 4294967296 + 4294967296 - a % 4294967296) % 4294967296 ∧
      (b % 4294967296 + 4294967296 - a % 4294967296) % 4294967296 ≤ 4294967292) :
    load32 (store32 mem a v) b = load32 mem b := by
  apply load32_congr
  intro i hi
  apply store32_apply_of_far
  omega


/-! ## Pushes -/

/-- The borrow form of `sub32` is subtraction modulo 2^32. -/
theorem sub32_eq (a n : Nat) : sub32 a n = (a + 4294967296 - n) % 4294967296 := by
  unfold sub32; split <;> omega

theorem pushWord_esp (k : Stacker) (v : Nat) :
    (k.pushWord v).esp = (k.esp + 4294967296 - 4) % 4294967296 := by
  rw [← sub32_eq]; rfl

theorem pushWord_mem (k : Stacker) (v : Nat) :
    (k.pushWord v).mem = store32 k.mem ((k.esp + 4294967296 - 4) % 4294967296) v := by
  rw [← sub32_eq]; rfl

theorem pushWord_esp_lt (k : Stacker) (v : Nat) : (k.pushWord v).esp < 4294967296 := by
  rw [pushWord_esp]; omega

theorem pushWords_nil (k : Stacker) : pushWords [] k = k := rfl

theorem pushWords_cons (v : Nat) (vs : List Nat) (k : Stacker) :
    pushWords (v :: vs) k = pushWords vs (k.pushWord v) := rfl

/-- Pushing `n` words lowers the cursor by `4 * n`, modulo 2^32. -/
theorem pushWords_esp (vs : List Nat) (k : Stacker) (hk : k.esp < 4294967296)
    (hlen : 4 * vs.length ≤ 4294967296) :
    (pushWords vs k).esp = (k.esp + 4294967296 - 4 * vs.length) % 4294967296 := by
  induction vs generalizing k with
  | nil => rw [pushWords_nil, List.length_nil]; omega
  | cons v vs ih =>
    rw [List.length_cons] at hlen
    rw [pushWords_cons, List.length_cons, ih _ (pushWord_esp_lt k v) (by omega), pushWord_esp]
    omega

/-- Pushing words changes no byte outside the region the cursor has moved over. -/
theorem pushWords_mem_far (vs : List Nat) (k : Stacker) (hk : k.esp < 4294967296)
    (hlen : 4 * vs.length ≤ 4294967296) (x : Nat)
    (hx : 4 * vs.length ≤ (x + 4294967296 - (pushWords vs k).esp) % 4294967296) :
    (pushWords vs k).mem x = k.mem x := by
  induction vs generalizing k with
  | nil => rw [pushWords_nil]
  | cons v vs ih =>
    rw [pushWords_esp (v :: vs) k hk hlen] at hx
    rw [List.length_cons] at hlen hx
    have hlen1 : 4 * vs.length ≤ 4294967296 := by omega
    have he := pushWords_esp vs (k.pushWord v) (pushWord_esp_lt k v) hlen1
    rw [pushWord_esp] at he
    rw [pushWords_cons, ih _ (pushWord_esp_lt k v) hlen1 (by rw [he]; omega), pushWord_mem]
    apply store32_apply_of_far
    omega

/-- After pushing a list of words, word `j` above the cursor is the list element pushed
`j`-th from last. -/
theorem pushWords_load (vs : List Nat) (k : Stacker) (hk : k.esp < 4294967296)
    (hlen : 4 * vs.length ≤ 4294967296) (j : Nat) (hj : j < vs.length) :
    load32 (pushWords vs k).mem ((pushWords vs k).esp + 4 * j) =
      vs.reverse.getD j 0 % 4294967296 := by
  induction vs generalizing k with
  | nil => simp at hj
  | cons v vs ih =>
    rw [List.length_cons] at hlen hj
    have hlen1 : 4 * vs.length ≤ 4294967296 := by omega
    have he := pushWords_esp vs (k.pushWord v) (pushWord_esp_lt k v) hlen1
    rw [pushWord_esp] at he
    rw [pushWords_cons]
    by_cases hjl : j < vs.length
    · rw [ih _ (pushWord_esp_lt k v) hlen1 hjl, List.reverse_cons,
        List.getD_append _ _ _ _ (by simpa using hjl)]
    · have hjeq : j = vs.length := by omega
      subst hjeq
      rw [List.reverse_cons, List.getD_append_right _ _ _ _ (by simp)]
      simp only [List.length_reverse, Nat.sub_self, List.getD_cons_zero]
      rw [load32_congr _ (k.pushWord v).mem, pushWord_mem]
      · apply load32_store32_same
        rw [he]; omega
      · intro i hi
        apply pushWords_mem_far _ _ (pushWord_esp_lt k v) hlen1
        rw [he]; omega


/-- A load depends on its address modulo 2^32 only. -/
theorem load32_addr_congr (mem : Mem) (a b : Nat) (h : a % 4294967296 = b % 4294967296) :
    load32 mem a = load32 mem b := by
  unfold load32
  have h1 : (a + 1) % 4294967296 = (b + 1) % 4294967296 := by omega
  have h2 : (a + 2) % 4294967296 = (b + 2) % 4294967296 := by omega
  have h3 : (a + 3) % 4294967296 = (b + 3) % 4294967296 := by omega
  rw [h, h1, h2, h3]

/-- The construction sequence is a push of eleven words. -/
theorem contextConstruction_eq (top F C E : Nat) (regs : Nat → pushal_t) (mem : Mem) :
    contextConstruction top F C E regs mem =
      pushWords [eflagsWord F, C % 4294967296, E % 4294967296,
        (regs (sub32 (top % 4294967296) 12)).eax, (regs (sub32 (top % 4294967296) 12)).ecx,
        (regs (sub32 (top % 4294967296) 12)).edx, (regs (sub32 (top % 4294967296) 12)).ebx,
        (regs (sub32 (top % 4294967296) 12)).esp, (regs (sub32 (top % 4294967296) 12)).ebp,
        (regs (sub32 (top % 4294967296) 12)).esi, (regs (sub32 (top % 4294967296) 12)).edi]
        (Stacker.new top mem) := by
  have h : sub32 (sub32 (sub32 (top % 4294967296) 4) 4) 4 = sub32 (top % 4294967296) 12 := by
    simp only [sub32_eq]; omega
  simp only [contextConstruction, Stacker.pushRegs, pushWords, Stacker.getESP]
  simp only [Stacker.pushWord, Stacker.new, h]

theorem pushWords_getD (vs : List Nat) (k : Stacker) (hk : k.esp < 4294967296)
    (hlen : 4 * vs.length ≤ 4294967296) (j : Nat) (hj : j < vs.length) (a : Nat)
    (ha : a % 4294967296 = ((pushWords vs k).esp + 4 * j) % 4294967296) :
    load32 (pushWords vs k).mem a = vs.reverse.getD j 0 % 4294967296 := by
  rw [load32_addr_congr _ _ _ ha]
  exact pushWords_load vs k hk hlen j hj

/-! ## The phases of the trampoline -/

theorem FrameAgree.trans {B : Nat} {m1 m2 m3 : Mem} (h12 : FrameAgree B m1 m2)
    (h23 : FrameAgree B m2 m3) : FrameAgree B m1 m3 :=
  fun i hi hs => (h12 i hi hs).trans (h23 i hi hs)

theorem FrameAgree.load {B : Nat} {m1 m2 : Mem} (h : FrameAgree B m1 m2) (o a : Nat)
    (ho : o + 4 ≤ 48) (hs : o + 4 ≤ 12 ∨ 16 ≤ o)
    (ha : a % 4294967296 = (B + o) % 4294967296) :
    load32 m1 a = load32 m2 a := by
  apply load32_congr
  intro i hi
  have h1 := h (o + i) (by omega) (by omega)
  have e : (a + i) % 4294967296 = (B + (o + i)) % 4294967296 := by omega
  rw [e]; exact h1

theorem stackOf_pushl (v : Nat) (m : Machine) : stackOf (pushl v m) = (stackOf m).pushWord v := rfl

/-- The prologue followed by `leave` restores the stack pointer and ebp; the only trace
is the word below the stack pointer. -/
theorem leave_framePrologue (m : Machine) :
    leave (framePrologue m) =
      { m with ebp := m.ebp % 4294967296, esp := m.esp % 4294967296,
               mem := store32 m.mem (sub32 m.esp 4) m.ebp } := by
  have h1 : load32 (store32 m.mem (sub32 m.esp 4) m.ebp) (sub32 m.esp 4) = m.ebp % 4294967296 :=
    load32_store32_same _ _ _ _ rfl
  have h2 : (sub32 m.esp 4 + 4) % 4294967296 = m.esp % 4294967296 := by
    rw [sub32_eq]; omega
  simp only [leave, framePrologue, pushl, h1, h2]

/-- The state the frame is saved from: the prologue, then `leave` unless it is
compiled out. -/
theorem entered_eq (b : Bool) (m : Machine) :
    (if b then framePrologue m else leave (framePrologue m)) =
      { m with ebp := entryEbp b m, esp := (entryStack b m).esp,
               mem := (entryStack b m).mem } := by
  cases b
  · simp only [leave_framePrologue, entryEbp, entryStack, Bool.false_eq_true, if_false]
  · simp only [framePrologue, pushl, entryEbp, entryStack, if_true]

theorem entryStack_esp_lt (b : Bool) (m : Machine) : (entryStack b m).esp < 4294967296 := by
  cases b
  · exact Nat.mod_lt _ (by decide)
  · simp only [entryStack, if_true]
    rw [sub32_eq]; omega

/-- The frame saved by the trampoline is a push of nine words: the accumulator slot and
the eight words of `pushal`. -/
theorem saveContext_stack (b : Bool) (m : Machine) :
    stackOf (saveContext b m) =
      pushWords [m.eax, m.eax, m.ecx, m.edx, m.ebx, sub32 (entryStack b m).esp 4,
        entryEbp b m, m.esi, m.edi] (entryStack b m) := by
  simp only [saveContext, entered_eq, pushal, pushl, stackOf, pushWords, Stacker.pushWord]

theorem saveContext_regs (b : Bool) (m : Machine) :
    (saveContext b m).eax = m.eax ∧ (saveContext b m).ecx = m.ecx ∧
    (saveContext b m).edx = m.edx ∧ (saveContext b m).ebx = m.ebx ∧
    (saveContext b m).ebp = entryEbp b m ∧
    (saveContext b m).esi = m.esi ∧ (saveContext b m).edi = m.edi ∧
    (saveContext b m).console = m.console := by
  simp only [saveContext, entered_eq, pushal, pushl, and_self]

theorem saveContext_esp (b : Bool) (m : Machine) :
    (saveContext b m).esp = ((entryStack b m).esp + 4294967296 - 36) % 4294967296 := by
  have h : (saveContext b m).esp = (stackOf (saveContext b m)).esp := rfl
  rw [h, saveContext_stack, pushWords_esp _ _ (entryStack_esp_lt b m) (by simp)]
  simp only [List.length_cons, List.length_nil]

theorem argsPushed_stack (s : Machine) :
    stackOf (argsPushed s) = pushWords [s.edx, s.ecx, s.ebx, s.eax] (stackOf s) := rfl

theorem argsPushed_esp (s : Machine) (hs : s.esp < 4294967296) :
    (argsPushed s).esp = (s.esp + 4294967296 - 16) % 4294967296 := by
  have h : (argsPushed s).esp = (stackOf (argsPushed s)).esp := rfl
  rw [h, argsPushed_stack, pushWords_esp _ _ hs (by simp)]
  simp only [stackOf, List.length_cons, List.length_nil]

theorem argsPushed_regs (s : Machine) :
    (argsPushed s).ebx = s.ebx ∧ (argsPushed s).ebp = s.ebp ∧ (argsPushed s).esi = s.esi ∧
    (argsPushed s).edi = s.edi ∧ (argsPushed s).console = s.console := by
  simp only [argsPushed, pushl, and_self]

theorem call_frame (f : CFunction) (m : Machine) :
    (call f m).esp = m.esp ∧ (call f m).ebx = m.ebx ∧ (call f m).ebp = m.ebp ∧
    (call f m).esi = m.esi ∧ (call f m).edi = m.edi ∧ (call f m).mem = (f m).mem ∧
    (call f m).eax = (f m).eax % 4294967296 := by
  simp only [call, and_self]

theorem runSystemCall_eq (k : Kernel) (s : Machine) :
    runSystemCall k s =
      addl_esp 16 (movl_eax_to_stack 28
        (call_systemCallDispatcher k.dispatcherScratch (argsPushed s))) := by
  simp only [runSystemCall, argsPushed, pushl]

theorem call_systemCallDispatcher_frame (f : CFunction) (m : Machine) :
    (call_systemCallDispatcher f m).esp = m.esp ∧
    (call_systemCallDispatcher f m).ebx = m.ebx ∧
    (call_systemCallDispatcher f m).ebp = m.ebp ∧
    (call_systemCallDispatcher f m).esi = m.esi ∧
    (call_systemCallDispatcher f m).edi = m.edi ∧
    (call_systemCallDispatcher f m).mem = (f m).mem ∧
    (call_systemCallDispatcher f m).eax =
      toWord (systemCallDispatcher (load32 m.mem m.esp) (load32 m.mem (m.esp + 4))
        (load32 m.mem (m.esp + 8)) (load32 m.mem (m.esp + 12)) m.console).1 ∧
    (call_systemCallDispatcher f m).console =
      (systemCallDispatcher (load32 m.mem m.esp) (load32 m.mem (m.esp + 4))
        (load32 m.mem (m.esp + 8)) (load32 m.mem (m.esp + 12)) m.console).2 := by
  simp only [call_systemCallDispatcher, call, and_self]

/-- The system-call part of the trampoline gives back the stack pointer and the
callee-saved registers it was entered with. -/
theorem runSystemCall_regs (k : Kernel) (s : Machine) (hs : s.esp < 4294967296) :
    (runSystemCall k s).esp = s.esp ∧ (runSystemCall k s).ebx = s.ebx ∧
    (runSystemCall k s).ebp = s.ebp ∧ (runSystemCall k s).esi = s.esi ∧
    (runSystemCall k s).edi = s.edi := by
  have he := argsPushed_esp s hs
  obtain ⟨r1, r2, r3, r4, _⟩ := argsPushed_regs s
  obtain ⟨c1, c2, c3, c4, c5, _⟩ :=
    call_systemCallDispatcher_frame k.dispatcherScratch (argsPushed s)
  rw [runSystemCall_eq]
  simp only [addl_esp, movl_eax_to_stack, c1, c2, c3, c4, c5, r1, r2, r3, r4, he, and_true]
  omega

theorem runSystemCall_mem (k : Kernel) (s : Machine) :
    (runSystemCall k s).mem =
      store32 (k.dispatcherScratch (argsPushed s)).mem ((argsPushed s).esp + 28)
        (call_systemCallDispatcher k.dispatcherScratch (argsPushed s)).eax := by
  obtain ⟨c1, _, _, _, _, c6, _⟩ :=
    call_systemCallDispatcher_frame k.dispatcherScratch (argsPushed s)
  rw [runSystemCall_eq]
  simp only [addl_esp, movl_eax_to_stack, c1, c6]

theorem argsPushed_frame (s : Machine) (hs : s.esp < 4294967296) (i : Nat) (hi : i < 48) :
    (argsPushed s).mem ((s.esp + i) % 4294967296) = s.mem ((s.esp + i) % 4294967296) := by
  have h : (argsPushed s).mem = (stackOf (argsPushed s)).mem := rfl
  have he := pushWords_esp [s.edx, s.ecx, s.ebx, s.eax] (stackOf s) hs (by simp)
  have e1 : (stackOf s).esp = s.esp := rfl
  rw [e1] at he
  simp only [List.length_cons, List.length_nil] at he
  rw [h, argsPushed_stack, pushWords_mem_far _ _ hs (by simp)]
  · rfl
  · rw [he]
    simp only [List.length_cons, List.length_nil]
    omega

/-- The system-call part of the trampoline writes into the frame only at the saved stack
pointer slot, when the compiled dispatcher leaves the frame alone. -/
theorem runSystemCall_frame (k : Kernel) (s : Machine) (hs : s.esp < 4294967296)
    (hp : PreservesBytes k.dispatcherScratch s.esp 48) :
    FrameAgree s.esp (runSystemCall k s).mem s.mem := by
  intro i hi hslot
  have he := argsPushed_esp s hs
  rw [runSystemCall_mem, store32_apply_of_far _ _ _ _ (by rw [he]; omega), hp _ i hi]
  exact argsPushed_frame s hs i hi


theorem toWord_lt (i : Int) : toWord i < 4294967296 := by
  unfold toWord; omega

theorem argsPushed_args (s : Machine) (hs : s.esp < 4294967296) :
    load32 (argsPushed s).mem (argsPushed s).esp = s.eax % 4294967296 ∧
    load32 (argsPushed s).mem ((argsPushed s).esp + 4) = s.ebx % 4294967296 ∧
    load32 (argsPushed s).mem ((argsPushed s).esp + 8) = s.ecx % 4294967296 ∧
    load32 (argsPushed s).mem ((argsPushed s).esp + 12) = s.edx % 4294967296 := by
  have h : (argsPushed s).mem = (stackOf (argsPushed s)).mem := rfl
  have h2 : (argsPushed s).esp = (stackOf (argsPushed s)).esp := rfl
  rw [h, h2, argsPushed_stack]
  have e1 : (stackOf s).esp < 4294967296 := hs
  refine ⟨?_, ?_, ?_, ?_⟩
  · rw [pushWords_getD _ _ e1 (by simp) 0 (by simp) _ (by omega)]; simp
  · rw [pushWords_getD _ _ e1 (by simp) 1 (by simp) _ (by omega)]; simp
  · rw [pushWords_getD _ _ e1 (by simp) 2 (by simp) _ (by omega)]; simp
  · rw [pushWords_getD _ _ e1 (by simp) 3 (by simp) _ (by omega)]; simp

theorem runSystemCall_eax (k : Kernel) (s : Machine) (hs : s.esp < 4294967296) :
    (call_systemCallDispatcher k.dispatcherScratch (argsPushed s)).eax =
      toWord (dispatcherResult s).1 := by
  obtain ⟨a0, a1, a2, a3⟩ := argsPushed_args s hs
  obtain ⟨_, _, _, _, rc⟩ := argsPushed_regs s
  obtain ⟨_, _, _, _, _, _, c7, _⟩ :=
    call_systemCallDispatcher_frame k.dispatcherScratch (argsPushed s)
  rw [c7, a0, a1, a2, a3, rc, dispatcherResult]

theorem runSystemCall_console (k : Kernel) (s : Machine) (hs : s.esp < 4294967296) :
    (runSystemCall k s).console = (dispatcherResult s).2 := by
  obtain ⟨a0, a1, a2, a3⟩ := argsPushed_args s hs
  obtain ⟨_, _, _, _, rc⟩ := argsPushed_regs s
  obtain ⟨_, _, _, _, _, _, _, c8⟩ :=
    call_systemCallDispatcher_frame k.dispatcherScratch (argsPushed s)
  rw [runSystemCall_eq]
  simp only [addl_esp, movl_eax_to_stack]
  rw [c8, a0, a1, a2, a3, rc, dispatcherResult]

/-- The result of the dispatcher is stored at offset 12 of the frame. -/
theorem runSystemCall_slot (k : Kernel) (s : Machine) (hs : s.esp < 4294967296) :
    load32 (runSystemCall k s).mem (s.esp + 12) = toWord (dispatcherResult s).1 := by
  have he := argsPushed_esp s hs
  rw [runSystemCall_mem, runSystemCall_eax k s hs,
    load32_store32_same _ _ _ _ (by rw [he]; omega)]
  exact Nat.mod_eq_of_lt (toWord_lt _)

theorem recordEsp0_frame (k : Kernel) (s : Machine) :
    (recordEsp0 k s).esp = s.esp ∧ (recordEsp0 k s).ebx = s.ebx ∧
    (recordEsp0 k s).ebp = s.ebp ∧ (recordEsp0 k s).esi = s.esi ∧
    (recordEsp0 k s).edi = s.edi ∧
    (recordEsp0 k s).mem =
      store32 (k.getCurrentThreadInfo s).mem ((k.getCurrentThreadInfo s).eax % 4294967296)
        s.esp := by
  simp only [recordEsp0, movl_esp_to_at_eax, call, and_self]

theorem switchStack_frame (k : Kernel) (s : Machine) :
    (switchStack k s).esp =
      (if (k.schedDispatchDecision s).eax % 4294967296 = 0 then s.esp
       else (k.schedDispatchDecision s).eax % 4294967296) ∧
    (switchStack k s).mem = (k.schedDispatchDecision s).mem := by
  simp only [switchStack, testl_eax_eax, movl_eax_to_esp, call, Nat.and_self, decide_eq_true_eq]
  split <;> simp_all

/-- Where the restore sequence takes each register and the return frame from. -/
theorem restoreContext_loads (s : Machine) :
    (restoreContext s).cpu.edi = load32 s.mem s.esp ∧
    (restoreContext s).cpu.esi = load32 s.mem (s.esp + 4) ∧
    (restoreContext s).cpu.ebp = load32 s.mem (s.esp + 8) ∧
    (restoreContext s).cpu.ebx = load32 s.mem (s.esp + 16) ∧
    (restoreContext s).cpu.edx = load32 s.mem (s.esp + 20) ∧
    (restoreContext s).cpu.ecx = load32 s.mem (s.esp + 24) ∧
    (restoreContext s).cpu.eax = load32 s.mem (s.esp + 32) ∧
    (restoreContext s).eip = load32 s.mem (s.esp + 36) ∧
    (restoreContext s).cs = load32 s.mem (s.esp + 40) ∧
    (restoreContext s).eflags = load32 s.mem (s.esp + 44) ∧
    (restoreContext s).cpu.mem = s.mem ∧
    (restoreContext s).cpu.console = s.console := by
  simp only [restoreContext, iret, popl_eax, popal, true_and, and_true]
  refine ⟨?_, ?_, ?_, ?_⟩ <;> apply load32_addr_congr <;> omega


theorem frameBase_eq (b : Bool) (m : Machine) : (saveContext b m).esp = frameBase b m := by
  rw [saveContext_esp, frameBase, sub32_eq]
  cases b
  · simp only [entryStack, Bool.false_eq_true, if_false]
  · simp only [entryStack, if_true]
    rw [sub32_eq]; omega

theorem frameBase_lt (b : Bool) (m : Machine) : frameBase b m < 4294967296 := by
  rw [frameBase, sub32_eq]; omega

theorem afterCall_esp (b : Bool) (k : Kernel) (m : Machine) :
    (runSystemCall k (saveContext b m)).esp = frameBase b m := by
  have hs : (saveContext b m).esp < 4294967296 := by rw [frameBase_eq]; exact frameBase_lt b m
  rw [(runSystemCall_regs k (saveContext b m) hs).1, frameBase_eq]

theorem recorded_esp (b : Bool) (k : Kernel) (m : Machine) : (recorded b k m).esp = frameBase b m := by
  rw [recorded, (recordEsp0_frame k _).1, afterCall_esp]

theorem recorded_load (b : Bool) (k : Kernel) (m : Machine) :
    load32 (recorded b k m).mem (threadInfoAddr b k m) = frameBase b m := by
  rw [recorded, (recordEsp0_frame k _).2.2.2.2.2, afterCall_esp, threadInfoAddr,
    (call_frame _ _).2.2.2.2.2.2, load32_store32_same _ _ _ _ rfl]
  exact Nat.mod_eq_of_lt (frameBase_lt b m)

theorem switchStack_esp (b : Bool) (k : Kernel) (m : Machine) :
    (switchStack k (recorded b k m)).esp =
      if switchDecision b k m = 0 then (recorded b k m).esp else switchDecision b k m := by
  rw [(switchStack_frame k _).1, switchDecision, (call_frame _ _).2.2.2.2.2.2]

theorem store32_apply_of_ne (mem : Mem) (a v x : Nat)
    (h : ∀ i, i < 4 → x ≠ (a + i) % 4294967296) : store32 mem a v x = mem x := by
  unfold store32
  have h0 := h 0 (by omega)
  have h1 := h 1 (by omega)
  have h2 := h 2 (by omega)
  have h3 := h 3 (by omega)
  simp only [Nat.add_zero] at h0
  simp [h0, h1, h2, h3]

/-- The nine words of the saved frame, lowest address first. -/
theorem saveContext_saved (b : Bool) (m : Machine) (j : Nat) (hj : j < 9) (a : Nat)
    (ha : a % 4294967296 = (frameBase b m + 4 * j) % 4294967296) :
    load32 (saveContext b m).mem a =
      [m.edi, m.esi, entryEbp b m, sub32 (entryStack b m).esp 4, m.ebx, m.edx, m.ecx,
        m.eax, m.eax].getD j 0 % 4294967296 := by
  have h : (saveContext b m).mem = (stackOf (saveContext b m)).mem := rfl
  have h2 : frameBase b m = (stackOf (saveContext b m)).esp := (frameBase_eq b m).symm
  rw [h2, saveContext_stack] at ha
  rw [h, saveContext_stack,
    pushWords_getD _ _ (entryStack_esp_lt b m) (by simp) j (by simpa using hj) a ha]
  rfl

/-- On a pass of the trampoline, every byte of the saved frame other than the saved
stack pointer slot is untouched between `pushal` and the restore sequence, when the
called C functions and the esp0 field stay clear of the frame. -/
theorem frame_kept (b : Bool) (k : Kernel) (m : Machine)
    (hp1 : PreservesBytes k.dispatcherScratch (frameBase b m) 48)
    (hp2 : PreservesBytes k.getCurrentThreadInfo (frameBase b m) 48)
    (hp3 : PreservesBytes k.schedDispatchDecision (frameBase b m) 48)
    (hT : ∀ i j, i < 4 → j < 48 →
      (frameBase b m + j) % 4294967296 ≠ (threadInfoAddr b k m + i) % 4294967296) :
    FrameAgree (frameBase b m) (switchStack k (recorded b k m)).mem (saveContext b m).mem := by
  have hs : (saveContext b m).esp < 4294967296 := by rw [frameBase_eq]; exact frameBase_lt b m
  have h1 : FrameAgree (frameBase b m) (runSystemCall k (saveContext b m)).mem (saveContext b m).mem := by
    have := runSystemCall_frame k (saveContext b m) hs (by rw [frameBase_eq]; exact hp1)
    rwa [frameBase_eq] at this
  have h2 : FrameAgree (frameBase b m) (recorded b k m).mem (runSystemCall k (saveContext b m)).mem := by
    intro i hi _
    have hta : threadInfoAddr b k m =
        (k.getCurrentThreadInfo (runSystemCall k (saveContext b m))).eax % 4294967296 := by
      rw [threadInfoAddr, (call_frame _ _).2.2.2.2.2.2]
    rw [recorded, (recordEsp0_frame k _).2.2.2.2.2, ← hta,
      store32_apply_of_ne _ _ _ _ (fun t ht => hT t i ht hi)]
    exact hp2 _ i hi
  have h3 : FrameAgree (frameBase b m) (switchStack k (recorded b k m)).mem (recorded b k m).mem := by
    intro i hi _
    rw [(switchStack_frame k _).2]
    exact hp3 _ i hi
  exact (h3.trans h2).trans h1


/-- The registers resumed without a switch, read off the saved frame, in either
build. -/
theorem resumed_saved (b : Bool) (k : Kernel) (m : Machine) (hd : switchDecision b k m = 0)
    (hp1 : PreservesBytes k.dispatcherScratch (frameBase b m) 48)
    (hp2 : PreservesBytes k.getCurrentThreadInfo (frameBase b m) 48)
    (hp3 : PreservesBytes k.schedDispatchDecision (frameBase b m) 48)
    (hT : ∀ i j, i < 4 → j < 48 →
      (frameBase b m + j) % 4294967296 ≠ (threadInfoAddr b k m + i) % 4294967296) :
    (systemCallHandler b k m).cpu.edi = m.edi % 4294967296 ∧
    (systemCallHandler b k m).cpu.esi = m.esi % 4294967296 ∧
    (systemCallHandler b k m).cpu.ebp = entryEbp b m % 4294967296 ∧
    (systemCallHandler b k m).cpu.ebx = m.ebx % 4294967296 ∧
    (systemCallHandler b k m).cpu.edx = m.edx % 4294967296 ∧
    (systemCallHandler b k m).cpu.ecx = m.ecx % 4294967296 ∧
    (systemCallHandler b k m).cpu.eax = m.eax % 4294967296 := by
  have hk := frame_kept b k m hp1 hp2 hp3 hT
  have he : (switchStack k (recorded b k m)).esp = frameBase b m := by
    rw [switchStack_esp, if_pos hd, recorded_esp]
  have hh : systemCallHandler b k m = restoreContext (switchStack k (recorded b k m)) := rfl
  obtain ⟨l0, l1, l2, l3, l4, l5, l6, _⟩ :=
    restoreContext_loads (switchStack k (recorded b k m))
  rw [hh, l0, l1, l2, l3, l4, l5, l6, he]
  refine ⟨?_, ?_, ?_, ?_, ?_, ?_, ?_⟩
  · rw [hk.load 0 _ (by omega) (by omega) (by omega),
      saveContext_saved b m 0 (by omega) _ (by omega)]; simp
  · rw [hk.load 4 _ (by omega) (by omega) (by omega),
      saveContext_saved b m 1 (by omega) _ (by omega)]; simp
  · rw [hk.load 8 _ (by omega) (by omega) (by omega),
      saveContext_saved b m 2 (by omega) _ (by omega)]; simp
  · rw [hk.load 16 _ (by omega) (by omega) (by omega),
      saveContext_saved b m 4 (by omega) _ (by omega)]; simp
  · rw [hk.load 20 _ (by omega) (by omega) (by omega),
      saveContext_saved b m 5 (by omega) _ (by omega)]; simp
  · rw [hk.load 24 _ (by omega) (by omega) (by omega),
      saveContext_saved b m 6 (by omega) _ (by omega)]; simp
  · rw [hk.load 32 _ (by omega) (by omega) (by omega),
      saveContext_saved b m 8 (by omega) _ (by omega)]; simp

theorem eflagsWord_testBit (F i : Nat) :
    (eflagsWord F).testBit i =
      ((F.testBit i && (0xFFFFFFFF ^^^ 0x24100 : Nat).testBit i) || (0x3200 : Nat).testBit i) := by
  unfold eflagsWord
  rw [Nat.testBit_or, Nat.testBit_and]

theorem const_testBit_high (c i : Nat) (hc : c < 4294967296) (hi : 32 ≤ i) :
    c.testBit i = false := by
  apply Nat.testBit_lt_two_pow
  calc c < 2 ^ 32 := hc
    _ ≤ 2 ^ i := Nat.pow_le_pow_right (by decide) hi

/-- The flags word is a 32-bit word. -/
theorem eflagsWord_lt (F : Nat) : eflagsWord F < 4294967296 := by
  unfold eflagsWord
  have h1 : F &&& (0xFFFFFFFF ^^^ 0x24100) < 2 ^ 32 :=
    Nat.lt_of_le_of_lt Nat.and_le_right (by decide)
  exact Nat.or_lt_two_pow h1 (by decide)

/-- Claim C5. For every 32-bit `F`, the flags word `(F & ~0x24100) | 0x3200` has bits 8
(trap), 14 (nested task) and 17 (virtual 8086) clear, bits 9 (interrupt enable), 12 and
13 (I/O privilege level 3) set, and every other bit as in `F`; for `F = 0` it is
`0x3200`. -/
theorem eflagsWord_bits (F : Nat) (hF : F < 4294967296) :
    (eflagsWord F).testBit 8 = false ∧ (eflagsWord F).testBit 14 = false ∧
    (eflagsWord F).testBit 17 = false ∧ (eflagsWord F).testBit 9 = true ∧
    (eflagsWord F).testBit 12 = true ∧ (eflagsWord F).testBit 13 = true ∧
    (∀ i, i ≠ 8 → i ≠ 9 → i ≠ 12 → i ≠ 13 → i ≠ 14 → i ≠ 17 →
      (eflagsWord F).testBit i = F.testBit i) ∧
    eflagsWord 0 = 0x3200 := by
  refine ⟨?_, ?_, ?_, ?_, ?_, ?_, ?_, by decide⟩
  · rw [eflagsWord_testBit]
    have h1 : (0xFFFFFFFF ^^^ 0x24100 : Nat).testBit 8 = false := by decide
    have h2 : (0x3200 : Nat).testBit 8 = false := by decide
    rw [h1, h2]; simp
  · rw [eflagsWord_testBit]
    have h1 : (0xFFFFFFFF ^^^ 0x24100 : Nat).testBit 14 = false := by decide
    have h2 : (0x3200 : Nat).testBit 14 = false := by decide
    rw [h1, h2]; simp
  · rw [eflagsWord_testBit]
    have h1 : (0xFFFFFFFF ^^^ 0x24100 : Nat).testBit 17 = false := by decide
    have h2 : (0x3200 : Nat).testBit 17 = false := by decide
    rw [h1, h2]; simp
  · rw [eflagsWord_testBit]
    have h2 : (0x3200 : Nat).testBit 9 = true := by decide
    rw [h2]; simp
  · rw [eflagsWord_testBit]
    have h2 : (0x3200 : Nat).testBit 12 = true := by decide
    rw [h2]; simp
  · rw [eflagsWord_testBit]
    have h2 : (0x3200 : Nat).testBit 13 = true := by decide
    rw [h2]; simp
  · intro i h8 h9 h12 h13 h14 h17
    rw [eflagsWord_testBit]
    by_cases hi : 32 ≤ i
    · rw [const_testBit_high F i hF hi, const_testBit_high _ i (by decide) hi,
        const_testBit_high _ i (by decide) hi]
      rfl
    · have hlt : i < 32 := by omega
      interval_cases i <;> first | omega | (simp; done) | simp [Nat.testBit]



/-- Claim C5 on all-ones flags. -/
theorem all_ones_flags :
    (eflagsWord 0xFFFFFFFF).testBit 8 = false ∧ (eflagsWord 0xFFFFFFFF).testBit 14 = false ∧
    (eflagsWord 0xFFFFFFFF).testBit 17 = false ∧ (eflagsWord 0xFFFFFFFF).testBit 9 = true ∧
    (eflagsWord 0xFFFFFFFF).testBit 12 = true ∧ (eflagsWord 0xFFFFFFFF).testBit 13 = true :=
  have h := eflagsWord_bits 0xFFFFFFFF (by decide)
  ⟨h.1, h.2.1, h.2.2.1, h.2.2.2.1, h.2.2.2.2.1, h.2.2.2.2.2.1⟩

/-! ## The dispatcher -/

/-- Claim C1. For every index outside 1..10 (0 and every value above 10 included) and
all argument words, `systemCallDispatcher` returns -1 and leaves the console as it
was: `sysHalt` is not run and nothing is printed. -/
theorem dispatcher_default_case (idx p1 p2 p3 : Nat) (con : Console)
    (hidx : ¬ (1 ≤ idx ∧ idx ≤ 10)) :
    systemCallDispatcher idx p1 p2 p3 con = (-1, con) := by
  have h1 : idx ≠ 1 := by omega
  have h2 : idx ≠ 2 := by omega
  have h3 : idx ≠ 3 := by omega
  have h4 : idx ≠ 4 := by omega
  have h5 : idx ≠ 5 := by omega
  have h6 : idx ≠ 6 := by omega
  have h7 : idx ≠ 7 := by omega
  have h8 : idx ≠ 8 := by omega
  have h9 : idx ≠ 9 := by omega
  have h10 : idx ≠ 10 := by omega
  simp only [systemCallDispatcher, SYS_HALT, SYS_EXECUTE, SYS_READ, SYS_WRITE, SYS_OPEN,
    SYS_CLOSE, SYS_GETARGS, SYS_VIDMAP, SYS_SET_HANDLER, SYS_SIGRETURN, h1, h2, h3, h4, h5,
    h6, h7, h8, h9, h10, if_false]

/-- Claim C1 at index 11. -/
theorem index_eleven_rejected :
    ¬ (1 ≤ 11 ∧ 11 ≤ 10) ∧
      systemCallDispatcher 11 1 2 3 [ConsoleEvent.haltLine 9] =
        (-1, [ConsoleEvent.haltLine 9]) :=
  ⟨by decide, dispatcher_default_case 11 1 2 3 [ConsoleEvent.haltLine 9] (by decide)⟩

/-- Claim C6. For every index in 1..10 the dispatcher does exactly what one call of
`sysHalt` on `p1` does, whatever `p2` and `p3` are: one line carrying `p1` is printed
and the result is 0.  For index 1 and `p1 = 5` the handler observes 5 and the
dispatcher returns 0. -/
theorem dispatcher_recognised_case (idx p1 p2 p3 : Nat) (con : Console)
    (hlo : 1 ≤ idx) (hhi : idx ≤ 10) :
    systemCallDispatcher idx p1 p2 p3 con = sysHalt p1 con ∧
    sysHalt p1 con = (0, con ++ [ConsoleEvent.haltLine p1]) ∧
    systemCallDispatcher 1 5 p2 p3 con = (0, con ++ [ConsoleEvent.haltLine 5]) := by
  refine ⟨?_, rfl, ?_⟩
  · have h : idx = 1 ∨ idx = 2 ∨ idx = 3 ∨ idx = 4 ∨ idx = 5 ∨ idx = 6 ∨ idx = 7 ∨ idx = 8 ∨
        idx = 9 ∨ idx = 10 := by omega
    rcases h with h | h | h | h | h | h | h | h | h | h <;> subst h <;> rfl
  · rfl

/-- Claim C6 at index 10. -/
theorem index_ten_runs_sysHalt :
    systemCallDispatcher 10 7 8 9 [] = sysHalt 7 [] ∧
    sysHalt 7 [] = (0, [] ++ [ConsoleEvent.haltLine 7]) ∧
    systemCallDispatcher 1 5 8 9 [] = (0, [] ++ [ConsoleEvent.haltLine 5]) :=
  dispatcher_recognised_case 10 7 8 9 [] (by decide) (by decide)

/-! ## The page table -/

/-- The population loop over a list of indices writes exactly the entries in the list. -/
theorem foldl_LOAD_4KB_PAGE (d : PagingDefs) (l : List Nat) (s : PagingState) (j : Nat) :
    (l.foldl (fun acc i => LOAD_4KB_PAGE d 0 i (i <<< 12) d.PG_WRITABLE acc)
      s).basicPageTable0 j =
      if j ∈ l then d.entry4KB (j <<< 12) d.PG_WRITABLE else s.basicPageTable0 j := by
  induction l generalizing s with
  | nil => simp
  | cons a l ih =>
    rw [List.foldl_cons, ih]
    by_cases hj : j ∈ l
    · simp [hj]
    · by_cases hja : j = a
      · subst hja
        simp [hj, LOAD_4KB_PAGE]
      · simp [hj, hja, LOAD_4KB_PAGE, Function.update_noteq hja]

/-- The page table after the bootstrap, entry by entry. -/
theorem kernel_enable_basic_paging_table (d : PagingDefs) (s : PagingState) (j : Nat) :
    (kernel_enable_basic_paging d s).basicPageTable0 j =
      if 1 ≤ j ∧ j < 1024 then d.entry4KB (j <<< 12) d.PG_WRITABLE
      else if j < 1024 then 0 else s.basicPageTable0 j := by
  simp only [kernel_enable_basic_paging, spin_lock_irqsave, spin_unlock_irqrestore,
    enable_paging, forLoop, foldl_LOAD_4KB_PAGE, LOAD_PAGE_TABLE, LOAD_4MB_PAGE,
    REDIRECT_PAGE_DIR, memsetZero, List.mem_range']
  by_cases h : 1 ≤ j ∧ j < 1024
  · rw [if_pos h, if_pos ⟨j - 1, by omega, by omega⟩]
  · rw [if_neg h, if_neg]
    rintro ⟨i, hi, hji⟩
    omega

/-- Claim C7. After `kernel_enable_basic_paging`, whatever the two tables held before,
entry 0 of `basicPageTable0` is zero, so its present bit (bit 0) is clear; the loop
has populated the entries 1 to 1023. -/
theorem table_entry_zero_is_guard (d : PagingDefs) (s : PagingState) :
    (kernel_enable_basic_paging d s).basicPageTable0 0 = 0 ∧
    ((kernel_enable_basic_paging d s).basicPageTable0 0).testBit 0 = false ∧
    (∀ i, 1 ≤ i → i < 1024 →
      (kernel_enable_basic_paging d s).basicPageTable0 i =
        d.entry4KB (i <<< 12) d.PG_WRITABLE) := by
  refine ⟨?_, ?_, ?_⟩
  · rw [kernel_enable_basic_paging_table]; simp
  · rw [kernel_enable_basic_paging_table]; simp
  · intro i h1 h2
    rw [kernel_enable_basic_paging_table, if_pos ⟨h1, h2⟩]



/-- Claim C7 on tables full of ones. -/
theorem dirty_tables_guarded :
    (kernel_enable_basic_paging samplePaging dirtyTables).basicPageTable0 0 = 0 ∧
    (kernel_enable_basic_paging samplePaging dirtyTables).basicPageTable0 1023 =
      samplePaging.entry4KB (1023 <<< 12) samplePaging.PG_WRITABLE :=
  have h := table_entry_zero_is_guard samplePaging dirtyTables
  ⟨h.1, h.2.2 1023 (by decide) (by decide)⟩

/-! ## The frame of the first thread -/

/-- The eleven words of the constructed frame, lowest address first. -/
theorem contextConstruction_load (top F C E : Nat) (regs : Nat → pushal_t) (mem : Mem)
    (j : Nat) (hj : j < 11) (a : Nat)
    (ha : a % 4294967296 =
      ((contextConstruction top F C E regs mem).esp + 4 * j) % 4294967296) :
    load32 (contextConstruction top F C E regs mem).mem a =
      [(regs (cursorAtRegs top)).edi, (regs (cursorAtRegs top)).esi,
        (regs (cursorAtRegs top)).ebp, (regs (cursorAtRegs top)).esp,
        (regs (cursorAtRegs top)).ebx, (regs (cursorAtRegs top)).edx,
        (regs (cursorAtRegs top)).ecx, (regs (cursorAtRegs top)).eax,
        E % 4294967296, C % 4294967296, eflagsWord F].getD j 0 % 4294967296 := by
  rw [contextConstruction_eq] at ha ⊢
  have hk : (Stacker.new top mem).esp < 4294967296 := Nat.mod_lt _ (by decide)
  rw [pushWords_getD _ _ hk (by simp) j (by simpa using hj) a ha]
  rfl

/-- Where the restore sequence of the boot path takes each register and the return frame
from. -/
theorem launch_fields (m : Machine) (k : Stacker) :
    (launch m k).cpu.edi = load32 k.mem k.esp ∧
    (launch m k).cpu.esi = load32 k.mem (k.esp + 4) ∧
    (launch m k).cpu.ebp = load32 k.mem (k.esp + 8) ∧
    (launch m k).cpu.ebx = load32 k.mem (k.esp + 16) ∧
    (launch m k).cpu.edx = load32 k.mem (k.esp + 20) ∧
    (launch m k).cpu.ecx = load32 k.mem (k.esp + 24) ∧
    (launch m k).cpu.eax = load32 k.mem (k.esp + 28) ∧
    (launch m k).eip = load32 k.mem (k.esp + 32) ∧
    (launch m k).cs = load32 k.mem (k.esp + 36) ∧
    (launch m k).eflags = load32 k.mem (k.esp + 40) ∧
    (launch m k).cpu.mem = k.mem := by
  simp only [launch, iret, popal, Stacker.getESP, true_and, and_true]
  refine ⟨?_, ?_, ?_⟩ <;> apply load32_addr_congr <;> omega

theorem launch_contextConstruction (top F C E : Nat) (regs : Nat → pushal_t) (mem : Mem)
    (m : Machine) :
    (launch m (contextConstruction top F C E regs mem)).eip = E % 4294967296 ∧
    (launch m (contextConstruction top F C E regs mem)).cs = C % 4294967296 ∧
    (launch m (contextConstruction top F C E regs mem)).eflags = eflagsWord F ∧
    (launch m (contextConstruction top F C E regs mem)).cpu.eax =
      (regs (cursorAtRegs top)).eax % 4294967296 ∧
    (launch m (contextConstruction top F C E regs mem)).cpu.ecx =
      (regs (cursorAtRegs top)).ecx % 4294967296 ∧
    (launch m (contextConstruction top F C E regs mem)).cpu.edx =
      (regs (cursorAtRegs top)).edx % 4294967296 ∧
    (launch m (contextConstruction top F C E regs mem)).cpu.ebx =
      (regs (cursorAtRegs top)).ebx % 4294967296 ∧
    (launch m (contextConstruction top F C E regs mem)).cpu.ebp =
      (regs (cursorAtRegs top)).ebp % 4294967296 ∧
    (launch m (contextConstruction top F C E regs mem)).cpu.esi =
      (regs (cursorAtRegs top)).esi % 4294967296 ∧
    (launch m (contextConstruction top F C E regs mem)).cpu.edi =
      (regs (cursorAtRegs top)).edi % 4294967296 := by
  obtain ⟨l0, l1, l2, l3, l4, l5, l6, l7, l8, l9, _⟩ :=
    launch_fields m (contextConstruction top F C E regs mem)
  rw [l0, l1, l2, l3, l4, l5, l6, l7, l8, l9]
  refine ⟨?_, ?_, ?_, ?_, ?_, ?_, ?_, ?_, ?_, ?_⟩
  · rw [contextConstruction_load top F C E regs mem 8 (by omega) _ (by omega)]; simp
  · rw [contextConstruction_load top F C E regs mem 9 (by omega) _ (by omega)]; simp
  · rw [contextConstruction_load top F C E regs mem 10 (by omega) _ (by omega)]
    exact Nat.mod_eq_of_lt (eflagsWord_lt F)
  · rw [contextConstruction_load top F C E regs mem 7 (by omega) _ (by omega)]; simp
  · rw [contextConstruction_load top F C E regs mem 6 (by omega) _ (by omega)]; simp
  · rw [contextConstruction_load top F C E regs mem 5 (by omega) _ (by omega)]; simp
  · rw [contextConstruction_load top F C E regs mem 4 (by omega) _ (by omega)]; simp
  · rw [contextConstruction_load top F C E regs mem 2 (by omega) _ (by omega)]; simp
  · rw [contextConstruction_load top F C E regs mem 1 (by omega) _ (by omega)]; simp
  · rw [contextConstruction_load top F C E regs mem 0 (by omega) _ (by omega)]; simp

/-- Claim C4. Round trip of context construction: for every stack top, initial flags
`F`, 32-bit code selector `C` and entry address `E`, and every register block of
32-bit words, the frame written by the construction sequence, consumed from the final
cursor by `popal; iretl`, yields instruction pointer `E`, code selector `C`, the flags
word written, and every general register other than esp as supplied.  With the
register block of the boot path that is eax = 0xFFFFFFFF and
ebx = ecx = edx = esi = edi = ebp = 0. -/
theorem context_round_trip (top F C E : Nat) (regs : Nat → pushal_t) (mem : Mem)
    (m : Machine) (hC : C < 4294967296) (hE : E < 4294967296)
    (hR : (regs (cursorAtRegs top)).eax < 4294967296 ∧
      (regs (cursorAtRegs top)).ecx < 4294967296 ∧ (regs (cursorAtRegs top)).edx < 4294967296 ∧
      (regs (cursorAtRegs top)).ebx < 4294967296 ∧ (regs (cursorAtRegs top)).ebp < 4294967296 ∧
      (regs (cursorAtRegs top)).esi < 4294967296 ∧ (regs (cursorAtRegs top)).edi < 4294967296) :
    ((launch m (contextConstruction top F C E regs mem)).eip = E ∧
     (launch m (contextConstruction top F C E regs mem)).cs = C ∧
     (launch m (contextConstruction top F C E regs mem)).eflags = eflagsWord F ∧
     (launch m (contextConstruction top F C E regs mem)).cpu.eax = (regs (cursorAtRegs top)).eax ∧
     (launch m (contextConstruction top F C E regs mem)).cpu.ecx = (regs (cursorAtRegs top)).ecx ∧
     (launch m (contextConstruction top F C E regs mem)).cpu.edx = (regs (cursorAtRegs top)).edx ∧
     (launch m (contextConstruction top F C E regs mem)).cpu.ebx = (regs (cursorAtRegs top)).ebx ∧
     (launch m (contextConstruction top F C E regs mem)).cpu.ebp = (regs (cursorAtRegs top)).ebp ∧
     (launch m (contextConstruction top F C E regs mem)).cpu.esi = (regs (cursorAtRegs top)).esi ∧
     (launch m (contextConstruction top F C E regs mem)).cpu.edi = (regs (cursorAtRegs top)).edi) ∧
    ((launch m (contextConstruction top F C E bootRegs mem)).cpu.eax = 0xFFFFFFFF ∧
     (launch m (contextConstruction top F C E bootRegs mem)).cpu.ebx = 0 ∧
     (launch m (contextConstruction top F C E bootRegs mem)).cpu.ecx = 0 ∧
     (launch m (contextConstruction top F C E bootRegs mem)).cpu.edx = 0 ∧
     (launch m (contextConstruction top F C E bootRegs mem)).cpu.esi = 0 ∧
     (launch m (contextConstruction top F C E bootRegs mem)).cpu.edi = 0 ∧
     (launch m (contextConstruction top F C E bootRegs mem)).cpu.ebp = 0) := by
  obtain ⟨r1, r2, r3, r4, r5, r6, r7⟩ := hR
  obtain ⟨g0, g1, g2, g3, g4, g5, g6, g7, g8, g9⟩ :=
    launch_contextConstruction top F C E regs mem m
  obtain ⟨_, _, _, b3, b4, b5, b6, b7, b8, b9⟩ :=
    launch_contextConstruction top F C E bootRegs mem m
  refine ⟨⟨?_, ?_, g2, ?_, ?_, ?_, ?_, ?_, ?_, ?_⟩, ⟨?_, ?_, ?_, ?_, ?_, ?_, ?_⟩⟩
  · rw [g0, Nat.mod_eq_of_lt hE]
  · rw [g1, Nat.mod_eq_of_lt hC]
  · rw [g3, Nat.mod_eq_of_lt r1]
  · rw [g4, Nat.mod_eq_of_lt r2]
  · rw [g5, Nat.mod_eq_of_lt r3]
  · rw [g6, Nat.mod_eq_of_lt r4]
  · rw [g7, Nat.mod_eq_of_lt r5]
  · rw [g8, Nat.mod_eq_of_lt r6]
  · rw [g9, Nat.mod_eq_of_lt r7]
  · rw [b3]; rfl
  · rw [b6]; rfl
  · rw [b4]; rfl
  · rw [b5]; rfl
  · rw [b8]; rfl
  · rw [b9]; rfl
  · rw [b7]; rfl

/-- Claim C4 on all-ones flags and an all-ones register block. -/
theorem all_ones_round_trip :
    ((launch zeroMachine
        (contextConstruction 0x801FFF 0xFFFFFFFF 0x23 0x400000 (fun _ => onesRegs)
          zeroMachine.mem)).eip = 0x400000 ∧
     (launch zeroMachine
        (contextConstruction 0x801FFF 0xFFFFFFFF 0x23 0x400000 (fun _ => onesRegs)
          zeroMachine.mem)).cpu.eax = 0xFFFFFFFF ∧
     (launch zeroMachine
        (contextConstruction 0x801FFF 0xFFFFFFFF 0x23 0x400000 (fun _ => onesRegs)
          zeroMachine.mem)).cpu.edi = 0xFFFFFFFF) :=
  have h := context_round_trip 0x801FFF 0xFFFFFFFF 0x23 0x400000 (fun _ => onesRegs)
    zeroMachine.mem zeroMachine (by decide) (by decide) (by decide)
  ⟨h.1.1, h.1.2.2.2.1, h.1.2.2.2.2.2.2.2.2.2⟩



/-- What `_entry` returns when a process id is left. -/
theorem entry_eq (env : BootEnv) (m : Machine) (hpid : 0 ≤ env.child_upid) :
    _entry env m =
      some { pcb_esp0 := (contextConstruction
               (sub32 ((env.kstack + env.THREAD_KSTACK_SIZE) % 4294967296) 1) 0
               env.USER_CS_SEL env.init_main bootRegs m.mem).esp,
             tss_esp0 := (contextConstruction
               (sub32 ((env.kstack + env.THREAD_KSTACK_SIZE) % 4294967296) 1) 0
               env.USER_CS_SEL env.init_main bootRegs m.mem).esp,
             resume := launch m (contextConstruction
               (sub32 ((env.kstack + env.THREAD_KSTACK_SIZE) % 4294967296) 1) 0
               env.USER_CS_SEL env.init_main bootRegs m.mem) } := by
  simp only [_entry, Stacker.getESP, not_lt.mpr hpid, if_false]

/-- Claim C3, amended. The frame `_entry` builds for the first thread, whose base it
stores in esp0, is from the lowest address the 8-word register block directly followed
by return address, code selector and flags: it has no accumulator slot.  Loading the
stored esp0 and running the restore sequence of the boot path (`popal; iretl`) resumes
at `init_main` with selector `USER_CS_SEL` and flags `0x3200`. -/
theorem boot_frame_layout (env : BootEnv) (m : Machine) (hpid : 0 ≤ env.child_upid)
    (hcs : env.USER_CS_SEL < 4294967296) (hmain : env.init_main < 4294967296) :
    ∃ out, _entry env m = some out ∧
      (List.range 8).map (fun j => load32 out.resume.cpu.mem (out.pcb_esp0 + 4 * j)) =
        [0, 0, 0, cursorAtRegs (sub32 ((env.kstack + env.THREAD_KSTACK_SIZE) % 4294967296) 1),
          0, 0, 0, 0xFFFFFFFF] ∧
      (List.range 3).map (fun j => load32 out.resume.cpu.mem (out.pcb_esp0 + 32 + 4 * j)) =
        [env.init_main, env.USER_CS_SEL, 0x3200] ∧
      out.resume.eip = env.init_main ∧ out.resume.cs = env.USER_CS_SEL ∧
      out.resume.eflags = 0x3200 := by
  refine ⟨_, entry_eq env m hpid, ?_, ?_, ?_, ?_, ?_⟩
  · rw [(launch_fields _ _).2.2.2.2.2.2.2.2.2.2]
    simp only [List.range, List.range.loop, List.map_cons, List.map_nil]
    rw [contextConstruction_load _ _ _ _ _ _ 0 (by omega) _ (by omega),
      contextConstruction_load _ _ _ _ _ _ 1 (by omega) _ (by omega),
      contextConstruction_load _ _ _ _ _ _ 2 (by omega) _ (by omega),
      contextConstruction_load _ _ _ _ _ _ 3 (by omega) _ (by omega),
      contextConstruction_load _ _ _ _ _ _ 4 (by omega) _ (by omega),
      contextConstruction_load _ _ _ _ _ _ 5 (by omega) _ (by omega),
      contextConstruction_load _ _ _ _ _ _ 6 (by omega) _ (by omega),
      contextConstruction_load _ _ _ _ _ _ 7 (by omega) _ (by omega)]
    have hc : cursorAtRegs (sub32 ((env.kstack + env.THREAD_KSTACK_SIZE) % 4294967296) 1) %
        4294967296 =
        cursorAtRegs (sub32 ((env.kstack + env.THREAD_KSTACK_SIZE) % 4294967296) 1) := by
      apply Nat.mod_eq_of_lt
      rw [cursorAtRegs, sub32_eq]; omega
    have hm : toWord (-1) % 4294967296 = 4294967295 := by decide
    simp [bootRegs, hc, hm]
  · rw [(launch_fields _ _).2.2.2.2.2.2.2.2.2.2]
    simp only [List.range, List.range.loop, List.map_cons, List.map_nil]
    rw [contextConstruction_load _ _ _ _ _ _ 8 (by omega) _ (by omega),
      contextConstruction_load _ _ _ _ _ _ 9 (by omega) _ (by omega),
      contextConstruction_load _ _ _ _ _ _ 10 (by omega) _ (by omega)]
    have hf : eflagsWord 0 % 4294967296 = 12800 := by decide
    simp [Nat.mod_eq_of_lt hcs, Nat.mod_eq_of_lt hmain, hf]
  · rw [(launch_contextConstruction _ _ _ _ _ _ _).1, Nat.mod_eq_of_lt hmain]
  · rw [(launch_contextConstruction _ _ _ _ _ _ _).2.1, Nat.mod_eq_of_lt hcs]
  · rw [(launch_contextConstruction _ _ _ _ _ _ _).2.2.1]; decide

/-- Claim C3, amended, on the sample boot environment. -/
theorem sample_boot_frame :
    ∃ out, _entry sampleBoot zeroMachine = some out ∧
      (List.range 8).map (fun j => load32 out.resume.cpu.mem (out.pcb_esp0 + 4 * j)) =
        [0, 0, 0,
          cursorAtRegs (sub32 ((sampleBoot.kstack + sampleBoot.THREAD_KSTACK_SIZE) % 4294967296) 1),
          0, 0, 0, 0xFFFFFFFF] ∧
      (List.range 3).map (fun j => load32 out.resume.cpu.mem (out.pcb_esp0 + 32 + 4 * j)) =
        [sampleBoot.init_main, sampleBoot.USER_CS_SEL, 0x3200] ∧
      out.resume.eip = sampleBoot.init_main ∧ out.resume.cs = sampleBoot.USER_CS_SEL ∧
      out.resume.eflags = 0x3200 :=
  boot_frame_layout sampleBoot zeroMachine (by decide) (by decide) (by decide)

/-- Claim C3 as stated fails. On the sample boot environment the restore sequence of
the trampoline (`popal; popl %eax; iret`), run from the stored esp0, pops the entry
address into eax and resumes at instruction pointer `USER_CS_SEL` with the flags word
as code selector, not at `init_main`. -/
theorem boot_frame_lacks_accumulator_slot :
    (_entry sampleBoot zeroMachine).map
        (fun out => (restoreContext { out.resume.cpu with esp := out.pcb_esp0 }).eip) =
      some sampleBoot.USER_CS_SEL ∧
    (_entry sampleBoot zeroMachine).map
        (fun out => (restoreContext { out.resume.cpu with esp := out.pcb_esp0 }).cs) =
      some 0x3200 ∧
    (_entry sampleBoot zeroMachine).map
        (fun out => (restoreContext { out.resume.cpu with esp := out.pcb_esp0 }).cpu.eax) =
      some sampleBoot.init_main ∧
    sampleBoot.USER_CS_SEL ≠ sampleBoot.init_main := by
  decide

/-! ## The trampoline as a whole -/

/-- Claim C2, evaluated on the code. For the system call halt (eax = 1, ebx = 5)
without a switch, the dispatcher returns 0 and the handler observes 5, yet the thread
resumes with eax = 1: the result 0 was stored at offset 12 of the frame, the saved
stack pointer slot, while the accumulator slot at offset 32 still holds 1.  For the
unrecognised index 11 the dispatcher returns -1 and the thread resumes with
eax = 11.  The same happens in the build with `__OPTIMIZE__`. -/
theorem halt_resumes_with_index_in_eax :
    (switchDecision false idleKernel haltCall = 0 ∧
     systemCallDispatcher 1 5 0xC 0xD [] = (0, [ConsoleEvent.haltLine 5]) ∧
     (systemCallHandler false idleKernel haltCall).cpu.console = [ConsoleEvent.haltLine 5] ∧
     (systemCallHandler false idleKernel haltCall).cpu.eax = 1 ∧
     load32 (systemCallHandler false idleKernel haltCall).cpu.mem
       (frameBase false haltCall + 12) = 0 ∧
     load32 (systemCallHandler false idleKernel haltCall).cpu.mem
       (frameBase false haltCall + 32) = 1 ∧
     switchDecision false idleKernel unknownCall = 0 ∧
     systemCallDispatcher 11 5 0xC 0xD [] = (-1, []) ∧
     (systemCallHandler false idleKernel unknownCall).cpu.eax = 11 ∧
     load32 (systemCallHandler false idleKernel unknownCall).cpu.mem
       (frameBase false unknownCall + 12) = 0xFFFFFFFF) ∧
    (switchDecision true idleKernel haltCall = 0 ∧
     (systemCallHandler true idleKernel haltCall).cpu.console = [ConsoleEvent.haltLine 5] ∧
     (systemCallHandler true idleKernel haltCall).cpu.eax = 1 ∧
     load32 (systemCallHandler true idleKernel haltCall).cpu.mem
       (frameBase true haltCall + 12) = 0 ∧
     load32 (systemCallHandler true idleKernel haltCall).cpu.mem
       (frameBase true haltCall + 32) = 1 ∧
     switchDecision true idleKernel unknownCall = 0 ∧
     (systemCallHandler true idleKernel unknownCall).cpu.eax = 11 ∧
     load32 (systemCallHandler true idleKernel unknownCall).cpu.mem
       (frameBase true unknownCall + 12) = 0xFFFFFFFF) := by
  decide

/-- The dispatcher result lands in the saved stack pointer slot of the frame (offset
12), and stays there up to the restore sequence. -/
theorem return_value_slot (b : Bool) (k : Kernel) (m : Machine)
    (hp2 : PreservesBytes k.getCurrentThreadInfo (frameBase b m) 48)
    (hp3 : PreservesBytes k.schedDispatchDecision (frameBase b m) 48)
    (hT : ∀ i j, i < 4 → j < 48 →
      (frameBase b m + j) % 4294967296 ≠ (threadInfoAddr b k m + i) % 4294967296) :
    load32 (switchStack k (recorded b k m)).mem (frameBase b m + 12) =
      toWord (systemCallDispatcher (m.eax % 4294967296) (m.ebx % 4294967296)
        (m.ecx % 4294967296) (m.edx % 4294967296) m.console).1 := by
  have hs : (saveContext b m).esp < 4294967296 := by rw [frameBase_eq]; exact frameBase_lt b m
  have h1 := runSystemCall_slot k (saveContext b m) hs
  obtain ⟨e1, e2, e3, e4, _, _, _, e8⟩ := saveContext_regs b m
  rw [frameBase_eq, dispatcherResult, e1, e2, e3, e4, e8] at h1
  rw [← h1]
  apply load32_congr
  intro i hi
  have hta : threadInfoAddr b k m =
      (k.getCurrentThreadInfo (runSystemCall k (saveContext b m))).eax % 4294967296 := by
    rw [threadInfoAddr, (call_frame _ _).2.2.2.2.2.2]
  have ea : (frameBase b m + 12 + i) % 4294967296 = (frameBase b m + (12 + i)) % 4294967296 := by
    omega
  rw [(switchStack_frame k _).2, ea, hp3 _ (12 + i) (by omega), recorded,
    (recordEsp0_frame k _).2.2.2.2.2, ← hta,
    store32_apply_of_ne _ _ _ _ (fun t ht => hT t (12 + i) ht (by omega))]
  exact hp2 _ (12 + i) (by omega)

/-- Without a switch the thread resumes with the eax it entered with, whatever the
dispatcher returned and in either build; the result of the dispatcher is in the saved
stack pointer slot, which the restore sequence skips. -/
theorem resumed_eax_is_entry_eax (b : Bool) (k : Kernel) (m : Machine)
    (hd : switchDecision b k m = 0)
    (hp1 : PreservesBytes k.dispatcherScratch (frameBase b m) 48)
    (hp2 : PreservesBytes k.getCurrentThreadInfo (frameBase b m) 48)
    (hp3 : PreservesBytes k.schedDispatchDecision (frameBase b m) 48)
    (hT : ∀ i j, i < 4 → j < 48 →
      (frameBase b m + j) % 4294967296 ≠ (threadInfoAddr b k m + i) % 4294967296) :
    (systemCallHandler b k m).cpu.eax = m.eax % 4294967296 ∧
    load32 (systemCallHandler b k m).cpu.mem (frameBase b m + 12) =
      toWord (systemCallDispatcher (m.eax % 4294967296) (m.ebx % 4294967296)
        (m.ecx % 4294967296) (m.edx % 4294967296) m.console).1 := by
  refine ⟨(resumed_saved b k m hd hp1 hp2 hp3 hT).2.2.2.2.2.2, ?_⟩
  have hh : systemCallHandler b k m = restoreContext (switchStack k (recorded b k m)) := rfl
  rw [hh, (restoreContext_loads _).2.2.2.2.2.2.2.2.2.2.1]
  exact return_value_slot b k m hp2 hp3 hT

/-- Claim C9. For every value returned by `schedDispatchDecision`, in either build, the
restore sequence pops from that value when it is not zero, and from the unchanged
stack pointer, the value just recorded in esp0, when it is zero. -/
theorem restore_pops_from_decision (b : Bool) (k : Kernel) (m : Machine) :
    (switchStack k (recorded b k m)).esp =
      (if switchDecision b k m = 0 then (recorded b k m).esp else switchDecision b k m) ∧
    (recorded b k m).esp = load32 (recorded b k m).mem (threadInfoAddr b k m) ∧
    systemCallHandler b k m = restoreContext (switchStack k (recorded b k m)) :=
  ⟨switchStack_esp b k m, by rw [recorded_load, recorded_esp], rfl⟩

end TedkOS
